import Mathlib

/-!
Shallow embedding of the pomodoro repository's two algorithmic cores:

* the countdown timer of `src/components/SimpleTimer.tsx` (interval variant)
  and of the unnamed frame-callback variant, and
* the settings store of `electron/settings-store.js` together with the
  clamping `validate` step of the settings dialog.

Timestamps and millisecond quantities are modelled as `Int` (JS numbers at
integer values); `Date.now()` / `performance.now()` become an explicit `now`
argument threaded through each operation.  React state updates inside one
handler are modelled as one atomic state transition (the handlers run on a
single cooperative thread).  The JS object spread used for settings records
is modelled on association lists so that key lookup agrees with the JS
semantics: later spread arguments win per key.
-/

set_option autoImplicit false

namespace Pomodoro

/-- State of the SimpleTimer component: `focusMinutes`, `isRunning` and
`remainingMs` are React state (mirrored into refs), `endAt` is `endAtRef`. -/
structure TimerState where
  focusMinutes : Int
  isRunning : Bool
  remainingMs : Int
  endAt : Option Int
  deriving DecidableEq, Repr

namespace SimpleTimer

/-- Source: `const DEFAULT_FOCUS_MINUTES = 25`. -/
def DEFAULT_FOCUS_MINUTES : Int := 25

/-- Initial React state of the component: not running, remaining time equal
to the default duration, no deadline. -/
def initialState : TimerState :=
  { focusMinutes := DEFAULT_FOCUS_MINUTES
    isRunning := false
    remainingMs := DEFAULT_FOCUS_MINUTES * 60000
    endAt := none }

/-- Source: `const durationMs = focusMinutes * 60_000`. -/
def durationMs (s : TimerState) : Int :=
  s.focusMinutes * 60000

/-- Source: `computeRemainingMs`: if `endAtRef.current == null` return the
snapshot `remainingMsRef.current`, else `Math.max(0, endAtRef.current - Date.now())`. -/
def computeRemainingMs (s : TimerState) (now : Int) : Int :=
  match s.endAt with
  | none => s.remainingMs
  | some endAt => max 0 (endAt - now)

/-- Source: `start`: no-op when `isRunningRef.current`; otherwise sets
`endAtRef.current = now + computeRemainingMs()` and `isRunning = true`
(and installs the interval, which the model represents by `isRunning`). -/
def start (s : TimerState) (now : Int) : TimerState :=
  if s.isRunning then s
  else { s with endAt := some (now + computeRemainingMs s now), isRunning := true }

/-- Source: the body of the interval installed by `start`: recompute
`left = computeRemainingMs()`, store it in `remainingMs`, and on `left <= 0`
clear the deadline, stop the interval and set `isRunning = false`.  The
interval only fires while installed, i.e. while the timer is running. -/
def tick (s : TimerState) (now : Int) : TimerState :=
  if s.isRunning then
    let left := computeRemainingMs s now
    if left ≤ 0 then
      { s with remainingMs := left, endAt := none, isRunning := false }
    else
      { s with remainingMs := left }
  else s

/-- Source: `pause`: no-op when not running; otherwise snapshot
`left = computeRemainingMs()`, stop the interval, clear `endAtRef`,
store the snapshot and set `isRunning = false`. -/
def pause (s : TimerState) (now : Int) : TimerState :=
  if s.isRunning then
    let left := computeRemainingMs s now
    { s with endAt := none, remainingMs := left, isRunning := false }
  else s

/-- Source: `reset`: stop the interval, clear the deadline, stop running and
refill `remainingMs` with the full duration. -/
def reset (s : TimerState) : TimerState :=
  { s with endAt := none, isRunning := false, remainingMs := durationMs s }

/-- Source: the `SETTINGS_CHANGED_EVENT` handler:
`mins = Math.max(1, Number(detail?.focusMinutes ?? DEFAULT_FOCUS_MINUTES))`,
then stop the interval, clear the deadline, stop running, and reset both the
duration and the remaining time to the new value. -/
def settingsChanged (s : TimerState) (focus : Option Int) : TimerState :=
  let mins := max 1 (focus.getD DEFAULT_FOCUS_MINUTES)
  { s with focusMinutes := mins, isRunning := false, endAt := none
           remainingMs := mins * 60000 }

/-- Iterated `tick` at one fixed wall-clock instant. -/
def ticks (s : TimerState) (now : Int) : Nat → TimerState
  | 0 => s
  | n + 1 => tick (ticks s now n) now

/-- Engine state invariant at wall-clock time `now`: the duration is at least
one minute, `isRunning` holds exactly when a deadline is present, and both the
snapshot and the derived remaining time lie between `0` and `durationMs`. -/
def Inv (s : TimerState) (now : Int) : Prop :=
  1 ≤ s.focusMinutes ∧
  (s.isRunning = true ↔ s.endAt.isSome = true) ∧
  0 ≤ s.remainingMs ∧ s.remainingMs ≤ durationMs s ∧
  0 ≤ computeRemainingMs s now ∧ computeRemainingMs s now ≤ durationMs s

/-- States reachable from the component's initial state by engine operations
invoked at non-decreasing wall-clock times.  `Reach s t` reads: at time `t`
the component can be in state `s`. -/
inductive Reach : TimerState → Int → Prop
  | init (t : Int) : Reach initialState t
  | step_start (s : TimerState) (t t' : Int) :
      Reach s t → t ≤ t' → Reach (start s t') t'
  | step_pause (s : TimerState) (t t' : Int) :
      Reach s t → t ≤ t' → Reach (pause s t') t'
  | step_reset (s : TimerState) (t t' : Int) :
      Reach s t → t ≤ t' → Reach (reset s) t'
  | step_tick (s : TimerState) (t t' : Int) :
      Reach s t → t ≤ t' → Reach (tick s t') t'
  | step_settings (s : TimerState) (t t' : Int) (focus : Option Int) :
      Reach s t → t ≤ t' → Reach (settingsChanged s focus) t'
  | step_wait (s : TimerState) (t t' : Int) :
      Reach s t → t ≤ t' → Reach s t'

end SimpleTimer

/-! ### Frame-callback variant of the timer component

Embedding of the unnamed second implementation of the timer (the
`requestAnimationFrame` loop with `performance.now()`). -/

namespace TimerB

/-- Source: `start`: no-op when `isRunning`; otherwise
`endAtRef.current = performance.now() + remainingMs` and `isRunning = true`. -/
def start (s : TimerState) (now : Int) : TimerState :=
  if s.isRunning then s
  else { s with endAt := some (now + s.remainingMs), isRunning := true }

/-- Source: the frame callback `tick`: return when `endAtRef.current == null`;
compute `left = endAt - now`; on `left <= 0` set remaining to `0`, stop the
loop, clear the deadline and stop running; otherwise store `left`. -/
def tick (s : TimerState) (now : Int) : TimerState :=
  match s.endAt with
  | none => s
  | some endAt =>
    let left := endAt - now
    if left ≤ 0 then
      { s with remainingMs := 0, endAt := none, isRunning := false }
    else
      { s with remainingMs := left }

/-- Source: `pause`: no-op when not running; stop the loop, compute
`left = (endAt ?? now) - now`, store `Math.max(0, left)` and clear the deadline. -/
def pause (s : TimerState) (now : Int) : TimerState :=
  if s.isRunning then
    let left := (s.endAt.getD now) - now
    { s with isRunning := false, remainingMs := max 0 left, endAt := none }
  else s

end TimerB

/-! ### Settings store (`electron/settings-store.js`)

The file system state visible to the store is the settings file and its
temporary sibling `settings.json.tmp`.  A file on disk is `absent`, `corrupt`
(present but not valid JSON) or `valid r` (holds the JSON text of the record
`r`).  Records are association lists of string keys and JSON scalar values;
`writeJsonAtomic` is split into its two observable file-system effects so the
intermediate (crash) state can be examined. -/

/-- JSON scalar values appearing in settings records. -/
inductive JVal where
  | jnum (n : Int)
  | jbool (b : Bool)
  | jstr (s : String)
  deriving DecidableEq, Repr

/-- A JSON object, as an association list; earlier entries shadow later ones
under `getKey` (see `spreadMerge`). -/
abbrev SettingsRecord := List (String × JVal)

/-- Key lookup in a record: first binding wins. -/
def getKey : SettingsRecord → String → Option JVal
  | [], _ => none
  | (k', v) :: rest, k => if k' = k then some v else getKey rest k

/-- Embedding of the JS object spread of `a` then `b`: a record whose lookups
agree with the spread (keys of `b` win, keys of `a` fall through).  Since
`getKey` takes the first binding, putting `b`'s entries first gives exactly
the spread's per-key semantics. -/
def spreadMerge (a b : SettingsRecord) : SettingsRecord :=
  b ++ a

/-- Contents of one on-disk file: missing, unparseable, or valid JSON of a
record. -/
inductive FileContent where
  | absent
  | corrupt
  | valid (r : SettingsRecord)
  deriving DecidableEq, Repr

/-- File-system state the store touches: the settings file and the temporary
file used by `writeJsonAtomic`. -/
structure Fs where
  main : FileContent
  tmp : Option SettingsRecord
  deriving DecidableEq, Repr

/-- The unguarded body of `readJsonSafe`: `fs.readFile` rejects on a missing
file and `JSON.parse` throws on corrupt content; both surface as `Except.error`. -/
def readJsonUnguarded : FileContent → Except Unit SettingsRecord
  | .absent => .error ()
  | .corrupt => .error ()
  | .valid r => .ok r

/-- Source: `readJsonSafe`: try to read and parse; any failure is caught and
returned as `null`. -/
def readJsonSafe (c : FileContent) : Option SettingsRecord :=
  match readJsonUnguarded c with
  | .ok r => some r
  | .error _ => none

/-- First effect of `writeJsonAtomic`: write the full serialized content to
the temporary path next to the settings file. -/
def writeTmpFile (fs : Fs) (data : SettingsRecord) : Fs :=
  { fs with tmp := some data }

/-- Second effect of `writeJsonAtomic`: `fs.rename(tmp, filePath)`, an atomic
replacement of the settings file by the temporary file. -/
def renameTmpOntoMain (fs : Fs) : Fs :=
  match fs.tmp with
  | some r => { main := .valid r, tmp := none }
  | none => fs

/-- Source: `writeJsonAtomic`: write the temporary file, then rename it onto
the final path. -/
def writeJsonAtomic (fs : Fs) (data : SettingsRecord) : Fs :=
  renameTmpOntoMain (writeTmpFile fs data)

/-- Source: `DEFAULT_SETTINGS` of `electron/settings-store.js`. -/
def DEFAULT_SETTINGS : SettingsRecord :=
  [("focusMinutes", .jnum 25),
   ("shortBreakMinutes", .jnum 5),
   ("longBreakMinutes", .jnum 15),
   ("longBreakEvery", .jnum 4),
   ("autoStartBreaks", .jbool false),
   ("autoStartPomodoros", .jbool false),
   ("soundEnabled", .jbool true)]

/-- Source: `loadSettings`: read the file safely, merge the stored record over
the defaults, and when nothing was stored write the merged defaults back.
Returns the resulting file system paired with the merged record. -/
def loadSettings (fs : Fs) : Fs × SettingsRecord :=
  let existing := readJsonSafe fs.main
  let merged := spreadMerge DEFAULT_SETTINGS (existing.getD [])
  match existing with
  | none => (writeJsonAtomic fs merged, merged)
  | some _ => (fs, merged)

/-- Source: `saveSettings(patch)`: load the current effective settings, merge
the patch over them, persist the result atomically and return it. -/
def saveSettings (fs : Fs) (patch : SettingsRecord) : Fs × SettingsRecord :=
  let loaded := loadSettings fs
  let next := spreadMerge loaded.2 patch
  (writeJsonAtomic loaded.1 next, next)

/-- Source: `setSetting(key, value)`: save the one-field record. -/
def setSetting (fs : Fs) (key : String) (value : JVal) : Fs × SettingsRecord :=
  saveSettings fs [(key, value)]

/-! ### Settings dialog validation (`SettingsModal`) -/

/-- The typed settings record the settings dialog edits. -/
structure AppSettings where
  focusMinutes : Int
  shortBreakMinutes : Int
  longBreakMinutes : Int
  longBreakEvery : Int
  autoStartBreaks : Bool
  autoStartPomodoros : Bool
  soundEnabled : Bool
  deriving DecidableEq, Repr

/-- Source: `const clamp = (n, min, max) => Math.min(max, Math.max(min, n))`. -/
def clamp (n lo hi : Int) : Int :=
  min hi (max lo n)

/-- Source: `validate` of the settings dialog: clamp the four numeric fields
to their documented ranges, leave the booleans untouched. -/
def validate (s : AppSettings) : AppSettings :=
  { s with
    focusMinutes := clamp s.focusMinutes 1 240
    shortBreakMinutes := clamp s.shortBreakMinutes 1 60
    longBreakMinutes := clamp s.longBreakMinutes 1 120
    longBreakEvery := clamp s.longBreakEvery 1 12 }

/-! ### Helper lemmas -/

/-- One `tick` never changes the value `computeRemainingMs` reads at the same
instant. -/
theorem tick_computeRemainingMs (s : TimerState) (now : Int) :
    SimpleTimer.computeRemainingMs (SimpleTimer.tick s now) now
      = SimpleTimer.computeRemainingMs s now := by
  by_cases hr : s.isRunning
  · simp only [SimpleTimer.tick, hr, if_true]
    by_cases hl : SimpleTimer.computeRemainingMs s now ≤ 0
    · rw [if_pos hl]
      simp [SimpleTimer.computeRemainingMs]
    · rw [if_neg hl]
      cases h : s.endAt with
      | none => simp [SimpleTimer.computeRemainingMs, h]
      | some e => simp [SimpleTimer.computeRemainingMs, h]
  · simp [SimpleTimer.tick, hr]

/-- Lookup in an appended record: the left part wins when it has the key. -/
theorem getKey_append (a b : SettingsRecord) (k : String) :
    getKey (a ++ b) k = Option.orElse (getKey a k) (fun _ => getKey b k) := by
  induction a with
  | nil => simp [getKey, Option.orElse]
  | cons p rest ih =>
    obtain ⟨k', v⟩ := p
    by_cases hk : k' = k
    · simp [getKey, hk, Option.orElse]
    · simp [getKey, hk, ih]

/-- The engine invariant transports forward in time: once it holds at `t` it
holds at every later instant (remaining time only shrinks while running). -/
theorem Inv_wait (s : TimerState) (t t' : Int) (htt : t ≤ t')
    (h : SimpleTimer.Inv s t) : SimpleTimer.Inv s t' := by
  obtain ⟨h1, h2, h3, h4, h5, h6⟩ := h
  refine ⟨h1, h2, h3, h4, ?_, ?_⟩ <;>
    cases he : s.endAt <;>
      simp only [SimpleTimer.computeRemainingMs, he] at h5 h6 ⊢ <;> omega

/-- The initial component state satisfies the invariant at every instant. -/
theorem Inv_initialState (t : Int) : SimpleTimer.Inv SimpleTimer.initialState t := by
  refine ⟨?_, ?_, ?_, ?_, ?_, ?_⟩ <;>
    norm_num [SimpleTimer.initialState, SimpleTimer.DEFAULT_FOCUS_MINUTES,
      SimpleTimer.computeRemainingMs, SimpleTimer.durationMs]

/-- `start` preserves the engine invariant. -/
theorem Inv_start (s : TimerState) (t : Int) (h : SimpleTimer.Inv s t) :
    SimpleTimer.Inv (SimpleTimer.start s t) t := by
  obtain ⟨h1, h2, h3, h4, h5, h6⟩ := h
  by_cases hr : s.isRunning
  · simpa [SimpleTimer.start, hr] using ⟨h1, h2, h3, h4, h5, h6⟩
  · have he : s.endAt = none := by
      cases he : s.endAt with
      | none => rfl
      | some e => exact absurd (h2.mpr (by rw [he]; rfl)) hr
    have hcr : SimpleTimer.computeRemainingMs s t = s.remainingMs := by
      simp only [SimpleTimer.computeRemainingMs, he]
    have hstart : SimpleTimer.start s t
        = { s with endAt := some (t + s.remainingMs), isRunning := true } := by
      simp [SimpleTimer.start, hr, hcr]
    rw [hstart]
    refine ⟨h1, by simp, h3, ?_, ?_, ?_⟩ <;>
      simp only [SimpleTimer.computeRemainingMs, SimpleTimer.durationMs] at h3 h4 ⊢ <;>
        omega

/-- `pause` preserves the engine invariant. -/
theorem Inv_pause (s : TimerState) (t : Int) (h : SimpleTimer.Inv s t) :
    SimpleTimer.Inv (SimpleTimer.pause s t) t := by
  obtain ⟨h1, h2, h3, h4, h5, h6⟩ := h
  by_cases hr : s.isRunning
  · have hp : SimpleTimer.pause s t
        = { s with endAt := none, remainingMs := SimpleTimer.computeRemainingMs s t, isRunning := false } := by
      simp [SimpleTimer.pause, hr]
    rw [hp]
    refine ⟨h1, by simp, h5, ?_, ?_, ?_⟩
    · simpa [SimpleTimer.durationMs] using h6
    · simpa [SimpleTimer.computeRemainingMs] using h5
    · simpa [SimpleTimer.computeRemainingMs, SimpleTimer.durationMs] using h6
  · have hp : SimpleTimer.pause s t = s := by
      simp [SimpleTimer.pause, hr]
    rw [hp]
    exact ⟨h1, h2, h3, h4, h5, h6⟩

/-- `reset` preserves the engine invariant. -/
theorem Inv_reset (s : TimerState) (t : Int) (h : SimpleTimer.Inv s t) :
    SimpleTimer.Inv (SimpleTimer.reset s) t := by
  obtain ⟨h1, h2, h3, h4, h5, h6⟩ := h
  refine ⟨h1, by simp [SimpleTimer.reset], ?_, ?_, ?_, ?_⟩ <;>
    simp only [SimpleTimer.reset, SimpleTimer.computeRemainingMs,
      SimpleTimer.durationMs] <;> omega

/-- `tick` preserves the engine invariant. -/
theorem Inv_tick (s : TimerState) (t : Int) (h : SimpleTimer.Inv s t) :
    SimpleTimer.Inv (SimpleTimer.tick s t) t := by
  obtain ⟨h1, h2, h3, h4, h5, h6⟩ := h
  by_cases hr : s.isRunning
  · by_cases hl : SimpleTimer.computeRemainingMs s t ≤ 0
    · have ht : SimpleTimer.tick s t
          = { s with remainingMs := SimpleTimer.computeRemainingMs s t, endAt := none, isRunning := false } := by
        simp only [SimpleTimer.tick, hr, if_true]
        rw [if_pos hl]
      rw [ht]
      exact ⟨h1, by simp, h5, by simpa [SimpleTimer.durationMs] using h6,
        by simpa [SimpleTimer.computeRemainingMs] using h5,
        by simpa [SimpleTimer.computeRemainingMs, SimpleTimer.durationMs] using h6⟩
    · have ht : SimpleTimer.tick s t
          = { s with remainingMs := SimpleTimer.computeRemainingMs s t } := by
        simp only [SimpleTimer.tick, hr, if_true]
        rw [if_neg hl]
      rw [ht]
      have hc : SimpleTimer.computeRemainingMs
          { s with remainingMs := SimpleTimer.computeRemainingMs s t } t
          = SimpleTimer.computeRemainingMs s t := by
        cases he : s.endAt with
        | none => simp [SimpleTimer.computeRemainingMs, he]
        | some e => simp [SimpleTimer.computeRemainingMs, he]
      refine ⟨h1, by simpa using h2, h5,
        by simpa [SimpleTimer.durationMs] using h6, ?_, ?_⟩
      · rw [hc]; exact h5
      · rw [hc]; simpa [SimpleTimer.durationMs] using h6
  · have ht : SimpleTimer.tick s t = s := by
      simp [SimpleTimer.tick, hr]
    rw [ht]
    exact ⟨h1, h2, h3, h4, h5, h6⟩

/-- The settings-changed handler establishes the engine invariant outright. -/
theorem Inv_settingsChanged (s : TimerState) (t : Int) (focus : Option Int) :
    SimpleTimer.Inv (SimpleTimer.settingsChanged s focus) t := by
  refine ⟨?_, ?_, ?_, ?_, ?_, ?_⟩ <;>
    simp [SimpleTimer.settingsChanged, SimpleTimer.durationMs,
      SimpleTimer.computeRemainingMs]

/-- Every reachable engine state satisfies the invariant. -/
theorem Reach_Inv (s : TimerState) (t : Int) (h : SimpleTimer.Reach s t) :
    SimpleTimer.Inv s t := by
  induction h with
  | init t => exact Inv_initialState t
  | step_start s t t' _hr htt ih => exact Inv_start s t' (Inv_wait s t t' htt ih)
  | step_pause s t t' _hr htt ih => exact Inv_pause s t' (Inv_wait s t t' htt ih)
  | step_reset s t t' _hr htt ih => exact Inv_reset s t' (Inv_wait s t t' htt ih)
  | step_tick s t t' _hr htt ih => exact Inv_tick s t' (Inv_wait s t t' htt ih)
  | step_settings s t t' focus _hr htt ih => exact Inv_settingsChanged s t' focus
  | step_wait s t t' _hr htt ih => exact Inv_wait s t t' htt ih

/-! ### Claim theorems -/

/-- C1: for every timer state and every number `n` of tick invocations,
running `tick` `n` times between two `currentRemainingMs` reads with no
elapsed wall-clock time yields the same value both times: the value read
depends only on the wall clock, never on how many times `tick` ran. -/
theorem tick_count_never_affects_reading (s : TimerState) (now : Int) (n : Nat) :
    SimpleTimer.computeRemainingMs (SimpleTimer.ticks s now n) now
      = SimpleTimer.computeRemainingMs s now := by
  induction n with
  | zero => rfl
  | succ n ih => rw [SimpleTimer.ticks, tick_computeRemainingMs, ih]

/-- C8: `start` is idempotent in both timer variants: a second call
immediately after the first (same instant) leaves the whole state — deadline
and remaining time included — exactly as after the first call, and on an
already-running timer `start` is a no-op. -/
theorem start_idempotent (s : TimerState) (now : Int) :
    SimpleTimer.start (SimpleTimer.start s now) now = SimpleTimer.start s now ∧
    TimerB.start (TimerB.start s now) now = TimerB.start s now := by
  constructor
  · by_cases h : s.isRunning
    · simp [SimpleTimer.start, h]
    · simp [SimpleTimer.start, h]
  · by_cases h : s.isRunning
    · simp [TimerB.start, h]
    · simp [TimerB.start, h]

/-- C2: every persist writes the full content to the temporary path and then
performs one atomic rename; a crash after the temporary write but before the
rename leaves the previously persisted file untouched and readable, and the
completed write leaves exactly the new content. -/
theorem write_atomic_crash_safe (fs : Fs) (data : SettingsRecord) :
    writeJsonAtomic fs data = renameTmpOntoMain (writeTmpFile fs data) ∧
    (writeTmpFile fs data).main = fs.main ∧
    readJsonSafe (writeTmpFile fs data).main = readJsonSafe fs.main ∧
    (writeTmpFile fs data).tmp = some data ∧
    (writeJsonAtomic fs data).main = FileContent.valid data ∧
    readJsonSafe (writeJsonAtomic fs data).main = some data := by
  refine ⟨rfl, rfl, rfl, rfl, ?_, ?_⟩ <;>
    simp [writeJsonAtomic, writeTmpFile, renameTmpOntoMain, readJsonSafe,
      readJsonUnguarded]

/-- C10: a settings file whose content does not parse is treated exactly like
a missing file: `loadSettings` returns the defaults and immediately overwrites
the file with the merged defaults, so the corrupt content is replaced. -/
theorem corrupt_file_treated_as_missing (tmp : Option SettingsRecord) :
    loadSettings (Fs.mk FileContent.corrupt tmp)
      = loadSettings (Fs.mk FileContent.absent tmp) ∧
    (loadSettings (Fs.mk FileContent.corrupt tmp)).1.main
      = FileContent.valid DEFAULT_SETTINGS ∧
    (loadSettings (Fs.mk FileContent.corrupt tmp)).2 = DEFAULT_SETTINGS := by
  refine ⟨?_, ?_, ?_⟩ <;>
    simp [loadSettings, readJsonSafe, readJsonUnguarded, writeJsonAtomic,
      writeTmpFile, renameTmpOntoMain, spreadMerge]

/-- C3: `loadSettings` returns the defaults shallow-merged with the stored
record — stored values win per key, missing keys fall back to defaults — and
when no file exists it returns exactly the seven built-in defaults and writes
them back so a settings file exists after the first load. -/
theorem load_merges_stored_over_defaults (fs : Fs) (k : String) (v : JVal) :
    (getKey ((readJsonSafe fs.main).getD []) k = some v →
      getKey (loadSettings fs).2 k = some v) ∧
    (getKey ((readJsonSafe fs.main).getD []) k = none →
      getKey (loadSettings fs).2 k = getKey DEFAULT_SETTINGS k) ∧
    (fs.main = FileContent.absent →
      (loadSettings fs).2 =
        [("focusMinutes", JVal.jnum 25), ("shortBreakMinutes", JVal.jnum 5),
         ("longBreakMinutes", JVal.jnum 15), ("longBreakEvery", JVal.jnum 4),
         ("autoStartBreaks", JVal.jbool false),
         ("autoStartPomodoros", JVal.jbool false),
         ("soundEnabled", JVal.jbool true)] ∧
      (loadSettings fs).1.main = FileContent.valid (loadSettings fs).2) := by
  cases hm : fs.main with
  | absent =>
    refine ⟨?_, ?_, ?_⟩ <;>
      simp [loadSettings, readJsonSafe, readJsonUnguarded, hm, spreadMerge,
        getKey, writeJsonAtomic, writeTmpFile, renameTmpOntoMain,
        DEFAULT_SETTINGS]
  | corrupt =>
    refine ⟨?_, ?_, ?_⟩ <;>
      simp [loadSettings, readJsonSafe, readJsonUnguarded, hm, spreadMerge,
        getKey, writeJsonAtomic, writeTmpFile, renameTmpOntoMain,
        DEFAULT_SETTINGS]
  | valid r =>
    have hload : (loadSettings fs).2 = r ++ DEFAULT_SETTINGS := by
      simp [loadSettings, readJsonSafe, readJsonUnguarded, hm, spreadMerge]
    refine ⟨?_, ?_, ?_⟩
    · intro hsome
      simp only [readJsonSafe, readJsonUnguarded, Option.getD_some] at hsome
      rw [hload, getKey_append, hsome]
      rfl
    · intro hnone
      simp only [readJsonSafe, readJsonUnguarded, Option.getD_some] at hnone
      rw [hload, getKey_append, hnone]
      rfl
    · intro habs
      exact absurd habs (by simp)

/-- Witness for C3 at a concrete stored record holding only `focusMinutes`:
the stored value wins for `focusMinutes`, the default fills `soundEnabled`. -/
theorem load_merges_stored_over_defaults_witness :
    getKey ((readJsonSafe (Fs.mk (FileContent.valid [("focusMinutes", JVal.jnum 30)]) none).main).getD [])
        "focusMinutes" = some (JVal.jnum 30) ∧
    getKey (loadSettings (Fs.mk (FileContent.valid [("focusMinutes", JVal.jnum 30)]) none)).2
        "focusMinutes" = some (JVal.jnum 30) ∧
    getKey ((readJsonSafe (Fs.mk (FileContent.valid [("focusMinutes", JVal.jnum 30)]) none).main).getD [])
        "soundEnabled" = none ∧
    getKey (loadSettings (Fs.mk (FileContent.valid [("focusMinutes", JVal.jnum 30)]) none)).2
        "soundEnabled" = getKey DEFAULT_SETTINGS "soundEnabled" :=
  ⟨by decide,
    (load_merges_stored_over_defaults
      (Fs.mk (FileContent.valid [("focusMinutes", JVal.jnum 30)]) none)
      "focusMinutes" (JVal.jnum 30)).1 (by decide),
    by decide,
    (load_merges_stored_over_defaults
      (Fs.mk (FileContent.valid [("focusMinutes", JVal.jnum 30)]) none)
      "soundEnabled" (JVal.jnum 30)).2.1 (by decide)⟩

/-- C5: `saveSettings` merges the patch over the current effective settings,
persists and returns the full result; a subsequent `loadSettings` returns the
patch's value for every key in the patch and the previous effective value for
every key not in it — previously set fields are never lost. -/
theorem save_then_load_round_trip (fs : Fs) (patch : SettingsRecord)
    (k : String) (v : JVal) :
    (saveSettings fs patch).2 = spreadMerge (loadSettings fs).2 patch ∧
    (getKey patch k = some v →
      getKey (loadSettings (saveSettings fs patch).1).2 k = some v) ∧
    (getKey patch k = none →
      getKey (loadSettings (saveSettings fs patch).1).2 k
        = getKey (loadSettings fs).2 k) := by
  have hmain : (saveSettings fs patch).1.main
      = FileContent.valid (spreadMerge (loadSettings fs).2 patch) := by
    simp [saveSettings, writeJsonAtomic, writeTmpFile, renameTmpOntoMain]
  have hreload : (loadSettings (saveSettings fs patch).1).2
      = (spreadMerge (loadSettings fs).2 patch) ++ DEFAULT_SETTINGS := by
    simp [loadSettings, readJsonSafe, readJsonUnguarded, hmain, spreadMerge]
  have hprev : ∃ stored : SettingsRecord,
      (loadSettings fs).2 = stored ++ DEFAULT_SETTINGS := by
    cases hm : fs.main with
    | absent =>
      exact ⟨[], by simp [loadSettings, readJsonSafe, readJsonUnguarded, hm,
        spreadMerge]⟩
    | corrupt =>
      exact ⟨[], by simp [loadSettings, readJsonSafe, readJsonUnguarded, hm,
        spreadMerge]⟩
    | valid r =>
      exact ⟨r, by simp [loadSettings, readJsonSafe, readJsonUnguarded, hm,
        spreadMerge]⟩
  obtain ⟨stored, hstored⟩ := hprev
  refine ⟨rfl, ?_, ?_⟩
  · intro hsome
    rw [hreload, spreadMerge, List.append_assoc, getKey_append, hsome]
    rfl
  · intro hnone
    rw [hreload, spreadMerge, List.append_assoc, getKey_append, hnone]
    show getKey ((loadSettings fs).2 ++ DEFAULT_SETTINGS) k
      = getKey (loadSettings fs).2 k
    rw [getKey_append]
    cases hp : getKey (loadSettings fs).2 k with
    | some v' => rfl
    | none =>
      rw [hstored, getKey_append] at hp
      cases hs : getKey stored k with
      | some v'' => rw [hs] at hp; exact absurd hp (by simp [Option.orElse])
      | none => rw [hs] at hp; simpa [Option.orElse] using hp

/-- Witness for C5: saving a `focusMinutes` patch over a file that already
stores `soundEnabled: false` keeps both values on the following load. -/
theorem save_then_load_round_trip_witness :
    getKey [("focusMinutes", JVal.jnum 30)] "focusMinutes" = some (JVal.jnum 30) ∧
    getKey (loadSettings (saveSettings
        (Fs.mk (FileContent.valid [("soundEnabled", JVal.jbool false)]) none)
        [("focusMinutes", JVal.jnum 30)]).1).2 "focusMinutes" = some (JVal.jnum 30) ∧
    getKey [("focusMinutes", JVal.jnum 30)] "soundEnabled" = none ∧
    getKey (loadSettings (saveSettings
        (Fs.mk (FileContent.valid [("soundEnabled", JVal.jbool false)]) none)
        [("focusMinutes", JVal.jnum 30)]).1).2 "soundEnabled"
      = getKey (loadSettings
          (Fs.mk (FileContent.valid [("soundEnabled", JVal.jbool false)]) none)).2
          "soundEnabled" :=
  ⟨by decide,
    (save_then_load_round_trip
      (Fs.mk (FileContent.valid [("soundEnabled", JVal.jbool false)]) none)
      [("focusMinutes", JVal.jnum 30)] "focusMinutes" (JVal.jnum 30)).2.1 (by decide),
    by decide,
    (save_then_load_round_trip
      (Fs.mk (FileContent.valid [("soundEnabled", JVal.jbool false)]) none)
      [("focusMinutes", JVal.jnum 30)] "soundEnabled" (JVal.jnum 30)).2.2 (by decide)⟩

/-- C6: `loadSettings` never propagates a read failure: on a missing or
unparseable settings file the unguarded read fails, `readJsonSafe` swallows
the failure into `none` (an empty record), and the load returns normally with
the defaults substituted. -/
theorem load_recovers_read_failure (fs : Fs)
    (h : fs.main = FileContent.absent ∨ fs.main = FileContent.corrupt) :
    readJsonUnguarded fs.main = Except.error () ∧
    readJsonSafe fs.main = none ∧
    (loadSettings fs).2 = DEFAULT_SETTINGS := by
  rcases h with h | h <;>
    refine ⟨?_, ?_, ?_⟩ <;>
      simp [h, readJsonUnguarded, readJsonSafe, loadSettings, spreadMerge]

/-- Witness for C6 at a concrete corrupt settings file. -/
theorem load_recovers_read_failure_witness :
    ((Fs.mk FileContent.corrupt none).main = FileContent.absent ∨
      (Fs.mk FileContent.corrupt none).main = FileContent.corrupt) ∧
    (readJsonUnguarded (Fs.mk FileContent.corrupt none).main = Except.error () ∧
      readJsonSafe (Fs.mk FileContent.corrupt none).main = none ∧
      (loadSettings (Fs.mk FileContent.corrupt none)).2 = DEFAULT_SETTINGS) :=
  ⟨Or.inr rfl, load_recovers_read_failure (Fs.mk FileContent.corrupt none) (Or.inr rfl)⟩

/-- C4: on a running timer, `pause` stores `max 0 (deadline - now)` as the
snapshot and clears the deadline, and a later `start` sets the new deadline to
`now` plus that snapshot, so the remaining time read at the resume instant
equals the remaining time read at the pause instant — nothing is lost or
gained across the pause, however long it lasted. -/
theorem pause_resume_preserves_remaining (s : TimerState) (e t1 t2 : Int)
    (hrun : s.isRunning = true) (he : s.endAt = some e) :
    (SimpleTimer.pause s t1).remainingMs = max 0 (e - t1) ∧
    (SimpleTimer.pause s t1).endAt = none ∧
    (SimpleTimer.pause s t1).isRunning = false ∧
    (SimpleTimer.start (SimpleTimer.pause s t1) t2).endAt
      = some (t2 + max 0 (e - t1)) ∧
    SimpleTimer.computeRemainingMs (SimpleTimer.start (SimpleTimer.pause s t1) t2) t2
      = SimpleTimer.computeRemainingMs s t1 := by
  have hp : SimpleTimer.pause s t1 =
      { s with endAt := none, remainingMs := max 0 (e - t1), isRunning := false } := by
    simp [SimpleTimer.pause, hrun, SimpleTimer.computeRemainingMs, he]
  have hs : SimpleTimer.start (SimpleTimer.pause s t1) t2 =
      { s with endAt := some (t2 + max 0 (e - t1)), remainingMs := max 0 (e - t1),
               isRunning := true } := by
    rw [hp]
    simp [SimpleTimer.start, SimpleTimer.computeRemainingMs]
  refine ⟨by rw [hp], by rw [hp], by rw [hp], by rw [hs], ?_⟩
  rw [hs]
  simp only [SimpleTimer.computeRemainingMs, he]
  have h0 : (0 : Int) ≤ max 0 (e - t1) := le_max_left 0 (e - t1)
  omega

/-- Witness for C4: a timer started from the initial state at time 0, paused
at time 600000 and resumed at time 2000000. -/
theorem pause_resume_preserves_remaining_witness :
    (SimpleTimer.start SimpleTimer.initialState 0).isRunning = true ∧
    (SimpleTimer.start SimpleTimer.initialState 0).endAt = some 1500000 ∧
    ((SimpleTimer.pause (SimpleTimer.start SimpleTimer.initialState 0) 600000).remainingMs
        = max 0 (1500000 - 600000) ∧
      (SimpleTimer.pause (SimpleTimer.start SimpleTimer.initialState 0) 600000).endAt = none ∧
      (SimpleTimer.pause (SimpleTimer.start SimpleTimer.initialState 0) 600000).isRunning = false ∧
      (SimpleTimer.start (SimpleTimer.pause (SimpleTimer.start SimpleTimer.initialState 0) 600000)
          2000000).endAt = some (2000000 + max 0 (1500000 - 600000)) ∧
      SimpleTimer.computeRemainingMs
          (SimpleTimer.start (SimpleTimer.pause (SimpleTimer.start SimpleTimer.initialState 0) 600000)
            2000000) 2000000
        = SimpleTimer.computeRemainingMs (SimpleTimer.start SimpleTimer.initialState 0) 600000) :=
  ⟨by decide, by decide,
    pause_resume_preserves_remaining (SimpleTimer.start SimpleTimer.initialState 0)
      1500000 600000 2000000 (by decide) (by decide)⟩

/-- C9 counterexample: the store's `saveSettings` does not clamp: saving the
out-of-range value 300 for `focusMinutes` (documented range 1 to 240)
persists 300 unchanged, and a subsequent load still returns 300. -/
theorem store_save_does_not_clamp :
    getKey (saveSettings (Fs.mk FileContent.absent none)
        [("focusMinutes", JVal.jnum 300)]).2 "focusMinutes"
      = some (JVal.jnum 300) ∧
    getKey (loadSettings (saveSettings (Fs.mk FileContent.absent none)
        [("focusMinutes", JVal.jnum 300)]).1).2 "focusMinutes"
      = some (JVal.jnum 300) ∧
    ¬ (300 : Int) ≤ 240 := by
  refine ⟨by decide, by decide, by norm_num⟩

/-- C9 amended: out-of-range settings values are clamped to their documented
ranges by the settings dialog's `validate` step before they reach the store,
and a missing, zero or negative focus duration reaching the engine is floored
to 1 minute; in neither place is an error raised (both are total functions),
but the store's own save/set persists whatever it is given. -/
theorem invalid_input_clamped_in_dialog_and_engine (s : AppSettings)
    (st : TimerState) (focus : Option Int) :
    (validate s).focusMinutes = clamp s.focusMinutes 1 240 ∧
    (validate s).shortBreakMinutes = clamp s.shortBreakMinutes 1 60 ∧
    (validate s).longBreakMinutes = clamp s.longBreakMinutes 1 120 ∧
    (validate s).longBreakEvery = clamp s.longBreakEvery 1 12 ∧
    (1 ≤ (validate s).focusMinutes ∧ (validate s).focusMinutes ≤ 240) ∧
    (1 ≤ (validate s).shortBreakMinutes ∧ (validate s).shortBreakMinutes ≤ 60) ∧
    (1 ≤ (validate s).longBreakMinutes ∧ (validate s).longBreakMinutes ≤ 120) ∧
    (1 ≤ (validate s).longBreakEvery ∧ (validate s).longBreakEvery ≤ 12) ∧
    (s.focusMinutes ≤ 0 → (validate s).focusMinutes = 1) ∧
    1 ≤ (SimpleTimer.settingsChanged st focus).focusMinutes ∧
    (focus.getD SimpleTimer.DEFAULT_FOCUS_MINUTES ≤ 0 →
      (SimpleTimer.settingsChanged st focus).focusMinutes = 1) ∧
    (SimpleTimer.settingsChanged st focus).remainingMs
      = SimpleTimer.durationMs (SimpleTimer.settingsChanged st focus) := by
  refine ⟨rfl, rfl, rfl, rfl, ?_, ?_, ?_, ?_, ?_, ?_, ?_, rfl⟩ <;>
    simp [validate, clamp, SimpleTimer.settingsChanged, SimpleTimer.durationMs] <;>
    omega

/-- Witness for the amended C9 at concrete out-of-range inputs. -/
theorem invalid_input_clamped_witness :
    (AppSettings.mk (-5) 0 500 13 false false true).focusMinutes ≤ 0 ∧
    (some (0 : Int)).getD SimpleTimer.DEFAULT_FOCUS_MINUTES ≤ 0 ∧
    ((validate (AppSettings.mk (-5) 0 500 13 false false true)).focusMinutes
        = clamp (AppSettings.mk (-5) 0 500 13 false false true).focusMinutes 1 240 ∧
      (validate (AppSettings.mk (-5) 0 500 13 false false true)).shortBreakMinutes
        = clamp (AppSettings.mk (-5) 0 500 13 false false true).shortBreakMinutes 1 60 ∧
      (validate (AppSettings.mk (-5) 0 500 13 false false true)).longBreakMinutes
        = clamp (AppSettings.mk (-5) 0 500 13 false false true).longBreakMinutes 1 120 ∧
      (validate (AppSettings.mk (-5) 0 500 13 false false true)).longBreakEvery
        = clamp (AppSettings.mk (-5) 0 500 13 false false true).longBreakEvery 1 12 ∧
      (1 ≤ (validate (AppSettings.mk (-5) 0 500 13 false false true)).focusMinutes ∧
        (validate (AppSettings.mk (-5) 0 500 13 false false true)).focusMinutes ≤ 240) ∧
      (1 ≤ (validate (AppSettings.mk (-5) 0 500 13 false false true)).shortBreakMinutes ∧
        (validate (AppSettings.mk (-5) 0 500 13 false false true)).shortBreakMinutes ≤ 60) ∧
      (1 ≤ (validate (AppSettings.mk (-5) 0 500 13 false false true)).longBreakMinutes ∧
        (validate (AppSettings.mk (-5) 0 500 13 false false true)).longBreakMinutes ≤ 120) ∧
      (1 ≤ (validate (AppSettings.mk (-5) 0 500 13 false false true)).longBreakEvery ∧
        (validate (AppSettings.mk (-5) 0 500 13 false false true)).longBreakEvery ≤ 12) ∧
      ((AppSettings.mk (-5) 0 500 13 false false true).focusMinutes ≤ 0 →
        (validate (AppSettings.mk (-5) 0 500 13 false false true)).focusMinutes = 1) ∧
      1 ≤ (SimpleTimer.settingsChanged SimpleTimer.initialState (some 0)).focusMinutes ∧
      ((some (0 : Int)).getD SimpleTimer.DEFAULT_FOCUS_MINUTES ≤ 0 →
        (SimpleTimer.settingsChanged SimpleTimer.initialState (some 0)).focusMinutes = 1) ∧
      (SimpleTimer.settingsChanged SimpleTimer.initialState (some 0)).remainingMs
        = SimpleTimer.durationMs (SimpleTimer.settingsChanged SimpleTimer.initialState (some 0))) :=
  ⟨by decide, by decide,
    invalid_input_clamped_in_dialog_and_engine
      (AppSettings.mk (-5) 0 500 13 false false true) SimpleTimer.initialState (some 0)⟩

/-- C7: in every reachable engine state, `isRunning` holds exactly when a
deadline is present, the remaining time (both the stored snapshot and the
value `currentRemainingMs` returns) lies between `0` and `durationMs` — in
particular it is never negative — and the `tick` that observes an expired
deadline transitions the engine to not-running with remaining time `0`. -/
theorem engine_state_invariants (s : TimerState) (t : Int)
    (h : SimpleTimer.Reach s t) :
    (s.isRunning = true ↔ s.endAt.isSome = true) ∧
    0 ≤ s.remainingMs ∧ s.remainingMs ≤ SimpleTimer.durationMs s ∧
    0 ≤ SimpleTimer.computeRemainingMs s t ∧
    SimpleTimer.computeRemainingMs s t ≤ SimpleTimer.durationMs s ∧
    (∀ t', t ≤ t' → s.isRunning = true →
      SimpleTimer.computeRemainingMs s t' ≤ 0 →
      (SimpleTimer.tick s t').isRunning = false ∧
      (SimpleTimer.tick s t').remainingMs = 0 ∧
      SimpleTimer.computeRemainingMs (SimpleTimer.tick s t') t' = 0) := by
  obtain ⟨h1, h2, h3, h4, h5, h6⟩ := Reach_Inv s t h
  refine ⟨h2, h3, h4, h5, h6, ?_⟩
  intro t' htt hr hl
  obtain ⟨g1, g2, g3, g4, g5, g6⟩ :=
    Reach_Inv s t' (SimpleTimer.Reach.step_wait s t t' h htt)
  have hzero : SimpleTimer.computeRemainingMs s t' = 0 := le_antisymm hl g5
  have hexp : SimpleTimer.tick s t'
      = { s with remainingMs := SimpleTimer.computeRemainingMs s t', endAt := none, isRunning := false } := by
    simp only [SimpleTimer.tick, hr, if_true]
    rw [if_pos hl]
  refine ⟨by rw [hexp], ?_, ?_⟩
  · rw [hexp]
    exact hzero
  · rw [hexp]
    simpa [SimpleTimer.computeRemainingMs] using hzero

/-- Witness for C7: the state reached by starting the initial timer at time 0,
inspected at time 0. -/
theorem engine_state_invariants_witness :
    ((SimpleTimer.start SimpleTimer.initialState 0).isRunning = true ↔
      (SimpleTimer.start SimpleTimer.initialState 0).endAt.isSome = true) ∧
    0 ≤ (SimpleTimer.start SimpleTimer.initialState 0).remainingMs ∧
    (SimpleTimer.start SimpleTimer.initialState 0).remainingMs
      ≤ SimpleTimer.durationMs (SimpleTimer.start SimpleTimer.initialState 0) ∧
    0 ≤ SimpleTimer.computeRemainingMs (SimpleTimer.start SimpleTimer.initialState 0) 0 ∧
    SimpleTimer.computeRemainingMs (SimpleTimer.start SimpleTimer.initialState 0) 0
      ≤ SimpleTimer.durationMs (SimpleTimer.start SimpleTimer.initialState 0) ∧
    (∀ t', (0 : Int) ≤ t' →
      (SimpleTimer.start SimpleTimer.initialState 0).isRunning = true →
      SimpleTimer.computeRemainingMs (SimpleTimer.start SimpleTimer.initialState 0) t' ≤ 0 →
      (SimpleTimer.tick (SimpleTimer.start SimpleTimer.initialState 0) t').isRunning = false ∧
      (SimpleTimer.tick (SimpleTimer.start SimpleTimer.initialState 0) t').remainingMs = 0 ∧
      SimpleTimer.computeRemainingMs
        (SimpleTimer.tick (SimpleTimer.start SimpleTimer.initialState 0) t') t' = 0) :=
  engine_state_invariants (SimpleTimer.start SimpleTimer.initialState 0) 0
    (SimpleTimer.Reach.step_start SimpleTimer.initialState 0 0
      (SimpleTimer.Reach.init 0) le_rfl)

end Pomodoro
